import Mathlib

/-!
# felixjung/blog-posts: the example code of two blog posts

* `posts/go-tests/example-code/go/pkg/math`: `SumOrMax` (source present), `Fib` and `Sum`
  (only their tests are present).
* `posts/go-interfaces/example-code`: the `server` package (`User`, `UserStorage`, `Server`,
  `CreateUserHandler`) and the `postgres` package (`DB` and its four stub methods).

Go's `int` is modelled as a mathematical integer in the 64-bit signed range, and `+` on it as
addition followed by two's-complement wrap-around. Go's `error` is modelled as an optional
message, `none` being `nil`. Stateful code is modelled by explicit state passing.
-/

namespace GoInt

/-- Smallest value of Go's 64-bit `int`. -/
def minInt : Int := -(2 ^ 63)

/-- Largest value of Go's 64-bit `int`. -/
def maxInt : Int := 2 ^ 63 - 1

/-- The values a Go 64-bit `int` can hold. -/
def InRange (x : Int) : Prop := minInt ≤ x ∧ x ≤ maxInt

instance (x : Int) : Decidable (InRange x) := by
  unfold InRange; infer_instance

/-- Two's-complement reduction of a mathematical integer to the 64-bit signed range. -/
def wrap64 (x : Int) : Int := (x + 2 ^ 63) % 2 ^ 64 - 2 ^ 63

/-- Go's `a + b` on `int`: the exact sum, wrapped modulo `2^64`. -/
def add (a b : Int) : Int := wrap64 (a + b)

end GoInt

namespace Math

open GoInt

/-- `SumOrMax` of `pkg/math/sumOrMax.go`:
```go
func SumOrMax(a, b, max int) int {
	sum := a + b
	if sum < max {
		return sum
	}
	return max
}
``` -/
def SumOrMax (a b max : Int) : Int :=
  let sum := GoInt.add a b
  if sum < max then
    sum
  else
    max

/-- Modelled from the spec: `Sum` of `pkg/math`, whose defining file is missing from the sources
(only `sum_test.go` is present). The spec calls it the "sum" helper with `sum(1,2)=3`; it is taken as
Go's addition of its two `int` arguments. -/
def Sum (a b : Int) : Int :=
  GoInt.add a b

/-- Modelled from the spec: `Fib` of `pkg/math`, whose defining file is missing from the sources
(only `fib_test.go` is present). The spec calls it the "Fibonacci" helper with values
`fib(0)=0, fib(1)=1, ..., fib(8)=21`; it is taken as the Fibonacci recurrence from `0` and `1`,
each step being Go's addition on `int`. Negative arguments, on which the spec is silent, are
outside the model. -/
def Fib : Nat → Int
  | 0 => 0
  | 1 => 1
  | n + 2 => GoInt.add (Fib (n + 1)) (Fib n)

end Math

/-! ## The `server` package -/

/-- Go's `error`: `none` is `nil`, `some msg` a non-nil error. -/
abbrev GoError := Option String

/-- A Go `map[string]string`, as the list of its entries. -/
abbrev GoMap := List (String × String)

/-- Go's map index expression `m[k]`: the value stored under `k`, or the zero value `""` when
the map (possibly `nil`) has no entry for `k`. -/
def GoMap.index (m : GoMap) (k : String) : String :=
  match m.lookup k with
  | some v => v
  | none => ""

namespace http

/-- The part of `*http.Request` the handler can see: method, URL path, body, and the route
variables the router stored in the request context. -/
structure Request where
  Method : String
  Path : String
  Body : List UInt8
  routeVars : GoMap
deriving DecidableEq

/-- The observable state of an `http.ResponseWriter`: the header map, the status code (if
`WriteHeader` was called), and the bytes written to the body. -/
structure ResponseWriter where
  Header : List (String × List String)
  Status : Option Nat
  Body : List UInt8
deriving DecidableEq

/-- `http.HandlerFunc`, `func(w http.ResponseWriter, r *http.Request)`, in state-passing form:
from the response writer, the request and the state `σ` of the handler's dependencies to the
response writer and dependency state it leaves behind. -/
abbrev HandlerFunc (σ : Type) := ResponseWriter → Request → σ → ResponseWriter × σ

end http

namespace mux

/-- `mux.Vars(r)`: the route variables of the request (a `nil` map, read like an empty one,
when the matched route has none). -/
def Vars (r : http.Request) : GoMap := r.routeVars

end mux

namespace server

/-- `User` of `server/server.go`. -/
structure User where
  ID : String
  FirstName : String
  LastName : String
  Email : String
deriving DecidableEq

/-- Go's zero value `User{}`. -/
def User.zero : User := { ID := "", FirstName := "", LastName := "", Email := "" }

/-- `UserStorage` of `server/server.go`: the four methods of the interface, each acting on the
state `σ` of the storage dependency. -/
structure UserStorage (σ : Type) where
  Create : User → σ → GoError × σ
  Read : String → σ → (User × GoError) × σ
  Update : User → σ → (User × GoError) × σ
  Delete : String → σ → (User × GoError) × σ

/-- `Server` of `server/server.go`; `H` stands for `*http.Server` and `R` for `*mux.Router`. -/
structure Server (H R σ : Type) where
  s : H
  Router : R
  us : UserStorage σ

/-- `NewServer` of `server/server.go`: `return &Server{s, r, us}`. -/
def NewServer {H R σ : Type} (s : H) (us : UserStorage σ) (r : R) : Server H R σ :=
  ⟨s, r, us⟩

/-- `CreateUserHandler` of `server/server.go`:
```go
return func(w http.ResponseWriter, r *http.Request) {
	routeParams := mux.Vars(r)
	u := User{
		ID: routeParams["id"],
	}
	if err := s.us.Create(u); err != nil {
		// TODO: handle errors.
	}
	// TODO: write response.
}
``` -/
def Server.CreateUserHandler {H R σ : Type} (s : Server H R σ) : http.HandlerFunc σ :=
  fun w r st =>
    let routeParams := mux.Vars r
    let u : User := { ID := routeParams.index "id", FirstName := "", LastName := "", Email := "" }
    match s.us.Create u st with
    | (some _err, st') => (w, st')
    | (none, st') => (w, st')

/-- One method call on a `UserStorage`, with its argument. -/
inductive StorageCall where
  | Create (u : User)
  | Read (userID : String)
  | Update (u : User)
  | Delete (userID : String)
deriving DecidableEq

/-- The storage `us`, instrumented: every method appends its call to a log kept next to the
state of `us` and otherwise behaves as `us` does. -/
def UserStorage.recording {σ : Type} (us : UserStorage σ) : UserStorage (σ × List StorageCall) where
  Create u st := ((us.Create u st.1).1, ((us.Create u st.1).2, st.2 ++ [StorageCall.Create u]))
  Read userID st := ((us.Read userID st.1).1, ((us.Read userID st.1).2, st.2 ++ [StorageCall.Read userID]))
  Update u st := ((us.Update u st.1).1, ((us.Update u st.1).2, st.2 ++ [StorageCall.Update u]))
  Delete userID st := ((us.Delete userID st.1).1, ((us.Delete userID st.1).2, st.2 ++ [StorageCall.Delete userID]))

/-- The server `s` with its storage instrumented. -/
def Server.recording {H R σ : Type} (s : Server H R σ) : Server H R (σ × List StorageCall) :=
  ⟨s.s, s.Router, s.us.recording⟩

end server

/-! ## The `postgres` package -/

namespace postgres

open server

/-- `DB` of `postgres/postgres.go`; `C` stands for `*pgx.Conn`, the state of the connection. -/
structure DB (C : Type) where
  conn : C

/-- `(*DB).Create` of `postgres/postgres.go`: `return nil`. -/
def DB.Create {C : Type} (_u : User) (db : DB C) : GoError × DB C :=
  (none, db)

/-- `(*DB).Read` of `postgres/postgres.go`: `return server.User{}, nil`. -/
def DB.Read {C : Type} (_userID : String) (db : DB C) : (User × GoError) × DB C :=
  ((User.zero, none), db)

/-- `(*DB).Update` of `postgres/postgres.go`: `return server.User{}, nil`. -/
def DB.Update {C : Type} (_u : User) (db : DB C) : (User × GoError) × DB C :=
  ((User.zero, none), db)

/-- `(*DB).Delete` of `postgres/postgres.go`: `return server.User{}, nil`. -/
def DB.Delete {C : Type} (_userID : String) (db : DB C) : (User × GoError) × DB C :=
  ((User.zero, none), db)

/-- `*DB` as a `server.UserStorage`, as `main` passes it to `NewServer`. -/
def DB.storage (C : Type) : UserStorage (DB C) :=
  ⟨DB.Create, DB.Read, DB.Update, DB.Delete⟩

end postgres

/-! ## Arithmetic of the wrapped addition -/

namespace GoInt

theorem wrap64_of_inRange (x : Int) (h : InRange x) : wrap64 x = x := by
  unfold InRange minInt maxInt at h
  unfold wrap64
  omega

theorem wrap64_inRange (x : Int) : InRange (wrap64 x) := by
  unfold InRange minInt maxInt wrap64
  omega

end GoInt

namespace Math

open GoInt

/-- C1: for Go ints `a`, `b`, `max` whose sum does not overflow, if `a + b < max` then
`SumOrMax a b max` is the sum `a + b`. -/
theorem SumOrMax_below (a b max : Int) (_ha : InRange a) (_hb : InRange b)
    (_hmax : InRange max) (hsum : InRange (a + b)) (hlt : a + b < max) :
    SumOrMax a b max = a + b := by
  simp only [SumOrMax, GoInt.add, wrap64_of_inRange _ hsum, if_pos hlt]

/-- The test case of `TestSumOrMax`, sum below the maximum: `SumOrMax 1 2 4 = 3`. -/
theorem SumOrMax_below_witness :
    (InRange 1 ∧ InRange 2 ∧ InRange 4 ∧ InRange (1 + 2) ∧ (1 : Int) + 2 < 4) ∧
      SumOrMax 1 2 4 = 3 :=
  ⟨by decide, SumOrMax_below 1 2 4 (by decide) (by decide) (by decide) (by decide) (by decide)⟩

/-- C2: for Go ints `a`, `b`, `max` whose sum does not overflow, if `a + b ≥ max` (equality
included) then `SumOrMax a b max` is `max`. -/
theorem SumOrMax_at_or_above (a b max : Int) (_ha : InRange a) (_hb : InRange b)
    (_hmax : InRange max) (hsum : InRange (a + b)) (hge : max ≤ a + b) :
    SumOrMax a b max = max := by
  simp only [SumOrMax, GoInt.add, wrap64_of_inRange _ hsum, if_neg (not_lt.mpr hge)]

/-- The test case of `TestSumOrMax`, sum above the maximum: `SumOrMax 5 10 4 = 4`; the equality case `SumOrMax 2 2 4 = 4` is evaluated next to it. -/
theorem SumOrMax_at_or_above_witness :
    (InRange 5 ∧ InRange 10 ∧ InRange 4 ∧ InRange (5 + 10) ∧ (4 : Int) ≤ 5 + 10) ∧
      SumOrMax 5 10 4 = 4 ∧ SumOrMax 2 2 4 = 4 :=
  ⟨by decide,
    SumOrMax_at_or_above 5 10 4 (by decide) (by decide) (by decide) (by decide) (by decide),
    by decide⟩

/-- C8, as stated, fails: `a = b = 2^62` and `max = 0` are Go ints and the exact sum `2^63` is
at or above `max`, yet the wrapped sum is `-2^63 < 0` and `SumOrMax` returns it, not `max`. -/
theorem SumOrMax_wrapped_sum_counterexample :
    InRange (2 ^ 62) ∧ InRange 0 ∧ (0 : Int) ≤ 2 ^ 62 + 2 ^ 62 ∧
      SumOrMax (2 ^ 62) (2 ^ 62) 0 = -(2 ^ 63) ∧ SumOrMax (2 ^ 62) (2 ^ 62) 0 ≠ 0 := by
  decide

/-- C8, amended: for Go ints `a`, `b`, `max` whose exact sum is at or above `max`,
`SumOrMax a b max` returns `max` exactly when the sum does not exceed the largest int or the
wrapped sum `a + b - 2^64` is itself at or above `max`; otherwise it returns the wrapped sum. -/
theorem SumOrMax_at_or_above_wrapping (a b max : Int) (ha : InRange a) (hb : InRange b)
    (hmax : InRange max) (hge : max ≤ a + b) :
    (SumOrMax a b max = max ↔ (a + b ≤ maxInt ∨ max ≤ a + b - 2 ^ 64)) ∧
      (¬ (a + b ≤ maxInt ∨ max ≤ a + b - 2 ^ 64) → SumOrMax a b max = a + b - 2 ^ 64) := by
  unfold InRange minInt maxInt at ha hb hmax
  unfold maxInt
  simp only [SumOrMax, GoInt.add, wrap64]
  split_ifs with hlt <;> constructor <;> omega

/-- An overflowing sum whose wrapped value is still at or above `max`: `SumOrMax (2^62) (2^62) (-2^63) = -2^63`. -/
theorem SumOrMax_at_or_above_wrapping_witness :
    (InRange (2 ^ 62) ∧ InRange (2 ^ 62) ∧ InRange (-(2 ^ 63)) ∧
        -(2 ^ 63) ≤ (2 : Int) ^ 62 + 2 ^ 62 ∧
        ((2 : Int) ^ 62 + 2 ^ 62 ≤ maxInt ∨ -(2 ^ 63) ≤ (2 : Int) ^ 62 + 2 ^ 62 - 2 ^ 64)) ∧
      SumOrMax (2 ^ 62) (2 ^ 62) (-(2 ^ 63)) = -(2 ^ 63) :=
  ⟨by decide,
    (SumOrMax_at_or_above_wrapping (2 ^ 62) (2 ^ 62) (-(2 ^ 63)) (by decide) (by decide)
      (by decide) (by decide)).1.mpr (by decide)⟩

/-- C9: for Go ints `a`, `b`, `max`, wrap-around included, `SumOrMax a b max` never exceeds
`max`, and it is the minimum of `max` and the wrapped 64-bit sum of `a` and `b`. -/
theorem SumOrMax_le_max (a b max : Int) (_ha : InRange a) (_hb : InRange b)
    (_hmax : InRange max) :
    SumOrMax a b max ≤ max ∧ SumOrMax a b max = min max (wrap64 (a + b)) := by
  simp only [SumOrMax, GoInt.add]
  split_ifs with hlt
  · exact ⟨le_of_lt hlt, (min_eq_right (le_of_lt hlt)).symm⟩
  · exact ⟨le_refl _, (min_eq_left (not_lt.mp hlt)).symm⟩

/-- The cap holds on an overflowing sum: `SumOrMax (2^62) (2^62) 0 ≤ 0`. -/
theorem SumOrMax_le_max_witness :
    (InRange (2 ^ 62) ∧ InRange (2 ^ 62) ∧ InRange 0) ∧
      SumOrMax (2 ^ 62) (2 ^ 62) 0 ≤ 0 ∧
      SumOrMax (2 ^ 62) (2 ^ 62) 0 = min 0 (wrap64 (2 ^ 62 + 2 ^ 62)) :=
  ⟨by decide, SumOrMax_le_max (2 ^ 62) (2 ^ 62) 0 (by decide) (by decide) (by decide)⟩

/-- C7: for Go ints `a` and `b` whose sum does not overflow, `Sum a b` is `a + b`. -/
theorem Sum_eq_add (a b : Int) (_ha : InRange a) (_hb : InRange b) (hsum : InRange (a + b)) :
    Sum a b = a + b := by
  simp only [Sum, GoInt.add, wrap64_of_inRange _ hsum]

/-- The test case of `TestSum`: `Sum 1 2 = 3`. -/
theorem Sum_eq_add_witness :
    (InRange 1 ∧ InRange 2 ∧ InRange (1 + 2)) ∧ Sum 1 2 = 3 :=
  ⟨by decide, Sum_eq_add 1 2 (by decide) (by decide) (by decide)⟩

/-- One step of the recurrence without wrap-around: when the two previous values are the
Fibonacci numbers and the next Fibonacci number fits in an int, the wrapped sum is exact. -/
theorem Fib_step (k : Nat) (x y : Int) (hx : x = (Nat.fib (k + 1) : Int))
    (hy : y = (Nat.fib k : Int)) (hfit : (Nat.fib (k + 2) : Int) ≤ maxInt) :
    GoInt.add x y = (Nat.fib (k + 2) : Int) ∧ GoInt.add x y = x + y := by
  have hrec : (Nat.fib (k + 2) : Int) = (Nat.fib k : Int) + (Nat.fib (k + 1) : Int) := by
    exact_mod_cast (Nat.fib_add_two : Nat.fib (k + 2) = Nat.fib k + Nat.fib (k + 1))
  have h0 : (0 : Int) ≤ (Nat.fib k : Int) := Int.natCast_nonneg _
  have h1 : (0 : Int) ≤ (Nat.fib (k + 1) : Int) := Int.natCast_nonneg _
  have hr : InRange (x + y) := by
    unfold InRange minInt
    unfold maxInt at hfit ⊢
    omega
  rw [GoInt.add, wrap64_of_inRange _ hr]
  exact ⟨by omega, rfl⟩

/-- As long as the `n`-th Fibonacci number fits in an int, `Fib` computes it, and so does the
call before it. -/
theorem Fib_eq_fib_aux (n : Nat) :
    ((Nat.fib n : Int) ≤ maxInt → Fib n = (Nat.fib n : Int)) ∧
      ((Nat.fib (n + 1) : Int) ≤ maxInt → Fib (n + 1) = (Nat.fib (n + 1) : Int)) := by
  induction n with
  | zero => exact ⟨fun _ => rfl, fun _ => rfl⟩
  | succ k ih =>
    refine ⟨ih.2, fun h => ?_⟩
    have hfit : (Nat.fib (k + 2) : Int) ≤ maxInt := h
    have hm1 : (Nat.fib (k + 1) : Int) ≤ (Nat.fib (k + 2) : Int) := by
      exact_mod_cast Nat.fib_mono (Nat.le_succ (k + 1))
    have hm0 : (Nat.fib k : Int) ≤ (Nat.fib (k + 2) : Int) := by
      exact_mod_cast Nat.fib_mono (Nat.le_add_right k 2)
    exact (Fib_step k (Fib (k + 1)) (Fib k) (ih.2 (le_trans hm1 hfit))
      (ih.1 (le_trans hm0 hfit)) hfit).1

/-- C6: `Fib 0 = 0`, `Fib 1 = 1`, for every `n ≥ 2` whose Fibonacci number fits in an int
`Fib n = Fib (n - 1) + Fib (n - 2)` (and `Fib n` is that Fibonacci number), and `Fib` on
`0, ..., 8` is `0, 1, 1, 2, 3, 5, 8, 13, 21`. -/
theorem Fib_spec :
    Fib 0 = 0 ∧ Fib 1 = 1 ∧
      (∀ n : Nat, 2 ≤ n → (Nat.fib n : Int) ≤ maxInt →
        Fib n = Fib (n - 1) + Fib (n - 2) ∧ Fib n = (Nat.fib n : Int)) ∧
      (List.range 9).map Fib = [0, 1, 1, 2, 3, 5, 8, 13, 21] := by
  refine ⟨rfl, rfl, ?_, by decide⟩
  intro n hn hfit
  obtain ⟨k, rfl⟩ : ∃ k, n = k + 2 := ⟨n - 2, by omega⟩
  have hm1 : (Nat.fib (k + 1) : Int) ≤ (Nat.fib (k + 2) : Int) := by
    exact_mod_cast Nat.fib_mono (Nat.le_succ (k + 1))
  have hm0 : (Nat.fib k : Int) ≤ (Nat.fib (k + 2) : Int) := by
    exact_mod_cast Nat.fib_mono (Nat.le_add_right k 2)
  have hstep := Fib_step k (Fib (k + 1)) (Fib k)
    ((Fib_eq_fib_aux k).2 (le_trans hm1 hfit)) ((Fib_eq_fib_aux k).1 (le_trans hm0 hfit)) hfit
  exact ⟨hstep.2, hstep.1⟩

/-- The recurrence at `n = 10`: `Fib 10 = Fib 9 + Fib 8 = 55`. -/
theorem Fib_spec_witness :
    (2 ≤ 10 ∧ (Nat.fib 10 : Int) ≤ maxInt) ∧ Fib 10 = Fib 9 + Fib 8 ∧ Fib 10 = 55 :=
  ⟨by decide, Fib_spec.2.2.1 10 (by decide) (by decide)⟩

end Math

/-! ## The postgres stubs -/

namespace postgres

open server

/-- C3: for every `DB` value, every user `u` and every string `id`, `Create u` returns a nil
error, and `Read id`, `Update u` and `Delete id` each return the zero-valued `User` (all four
fields empty) with a nil error; none of them changes the `DB`. -/
theorem DB_methods_do_nothing {C : Type} (db : DB C) (u : User) (id : String) :
    DB.Create u db = (none, db) ∧
      DB.Read id db = ((User.zero, none), db) ∧
      DB.Update u db = ((User.zero, none), db) ∧
      DB.Delete id db = ((User.zero, none), db) ∧
      (User.zero.ID = "" ∧ User.zero.FirstName = "" ∧ User.zero.LastName = "" ∧
        User.zero.Email = "") :=
  ⟨rfl, rfl, rfl, rfl, rfl, rfl, rfl, rfl⟩

end postgres

/-! ## The create-user handler -/

namespace server

/-- The user the handler builds from a request: `User{ID: routeParams["id"]}`. -/
theorem CreateUserHandler_run {H R σ : Type} (s : Server H R σ) (w : http.ResponseWriter)
    (r : http.Request) (st : σ) :
    s.CreateUserHandler w r st =
      (w, (s.us.Create ⟨(mux.Vars r).index "id", "", "", ""⟩ st).2) := by
  unfold Server.CreateUserHandler
  dsimp only
  split <;> rename_i h <;> rw [h]

/-- C4: for every request and every `UserStorage`, the handler makes exactly one storage call,
`Create`, with the user whose `ID` is the route parameter `"id"` and whose `FirstName`,
`LastName` and `Email` are empty; the storage is left in the state that one `Create` call
leaves it in. -/
theorem CreateUserHandler_calls_Create_once {H R σ : Type} (s : Server H R σ)
    (w : http.ResponseWriter) (r : http.Request) (st : σ) (log : List StorageCall) :
    (s.recording.CreateUserHandler w r (st, log)).2.2 =
        log ++ [StorageCall.Create
          { ID := (mux.Vars r).index "id", FirstName := "", LastName := "", Email := "" }] ∧
      (s.recording.CreateUserHandler w r (st, log)).2.1 = (s.CreateUserHandler w r st).2 ∧
      (s.CreateUserHandler w r st).2 =
        (s.us.Create
          { ID := (mux.Vars r).index "id", FirstName := "", LastName := "", Email := "" } st).2 := by
  rw [CreateUserHandler_run, CreateUserHandler_run]
  exact ⟨rfl, rfl, rfl⟩

/-- C5: for every request and every `UserStorage`, whatever `Create` returns, the handler
returns and leaves the response writer (headers, status code, body) exactly as it received
it; two runs on the same writer and request, over any two storages, leave the same response. -/
theorem CreateUserHandler_writes_nothing {H R σ : Type} (s : Server H R σ)
    (w : http.ResponseWriter) (r : http.Request) (st : σ) :
    (s.CreateUserHandler w r st).1 = w ∧
      ∀ (τ : Type) (s2 : Server H R τ) (st2 : τ),
        (s2.CreateUserHandler w r st2).1 = (s.CreateUserHandler w r st).1 := by
  refine ⟨by rw [CreateUserHandler_run], fun τ s2 st2 => ?_⟩
  rw [CreateUserHandler_run, CreateUserHandler_run]

/-- C10: when the route variables of the request have no `"id"` entry, the handler passes the
zero-valued `User` to `Create`, and that is its only storage call. -/
theorem CreateUserHandler_without_id {H R σ : Type} (s : Server H R σ)
    (w : http.ResponseWriter) (r : http.Request) (st : σ)
    (hid : (mux.Vars r).lookup "id" = none) :
    (s.recording.CreateUserHandler w r (st, [])).2.2 = [StorageCall.Create User.zero] ∧
      User.zero = { ID := "", FirstName := "", LastName := "", Email := "" } := by
  rw [CreateUserHandler_run]
  have hidx : (mux.Vars r).index "id" = "" := by
    unfold GoMap.index
    rw [hid]
  refine ⟨?_, rfl⟩
  show [] ++ [StorageCall.Create ⟨(mux.Vars r).index "id", "", "", ""⟩] = _
  rw [hidx]
  rfl

/-- A `POST /api/users` request without route variables, served over the postgres stubs: the only storage call is `Create` of the zero-valued user. -/
theorem CreateUserHandler_without_id_witness :
    (mux.Vars ⟨"POST", "/api/users", [], []⟩).lookup "id" = none ∧
      ((NewServer () (postgres.DB.storage Unit) ()).recording.CreateUserHandler
          ⟨[], none, []⟩ ⟨"POST", "/api/users", [], []⟩ (⟨()⟩, [])).2.2 =
        [StorageCall.Create User.zero] :=
  ⟨rfl,
    (CreateUserHandler_without_id (NewServer () (postgres.DB.storage Unit) ())
      ⟨[], none, []⟩ ⟨"POST", "/api/users", [], []⟩ ⟨()⟩ rfl).1⟩

end server
